import Mathlib

/-!
Verification of the request-processing middleware stack in
`src/ckan/config/middleware.py`: the page cache (`PageCacheMiddleware`),
the locale resolver (`I18nMiddleware`), the tracking endpoint
(`TrackingMiddleware`) and the completion hook
(`execute_on_completion` / `generate_close_and_callback`).

Byte strings from the Python 2 source (WSGI request bodies, hash inputs)
are modelled as `List Nat` of byte values; text strings as Lean `String`.
-/

/-! ### Generic list and string helpers -/

/-- Concatenation of a list of lists (`''.join` at the `List` level). -/
def catLists : List (List α) → List α
  | [] => []
  | l :: ls => l ++ catLists ls

/-- `''.join` on strings. -/
def strJoin (l : List String) : String := ⟨catLists (l.map String.data)⟩

/-- Python `str.split(sep)` for a one-character separator, on raw lists.
`splitC sep l` always returns at least one (possibly empty) part. -/
def splitC [DecidableEq α] (sep : α) : List α → List (List α)
  | [] => [[]]
  | c :: rest =>
    match splitC sep rest with
    | [] => [[]]
    | part :: parts => if c = sep then [] :: part :: parts else (c :: part) :: parts

/-- Python `'sep'.join` for a one-character separator, on raw lists. -/
def joinC (sep : α) : List (List α) → List α
  | [] => []
  | [l] => l
  | l :: ls => l ++ sep :: joinC sep ls

/-- Python `str.split('/')`-style splitting of a `String`. -/
def pySplit (sep : Char) (s : String) : List String :=
  (splitC sep s.data).map (fun l => ⟨l⟩)

/-- `'/'.join` on strings (Python list-of-strings join). -/
def joinSlash : List String → String
  | [] => ""
  | [x] => x
  | x :: xs => x ++ "/" ++ joinSlash xs

/-- Bytes of a string, one byte per code point (the Python 2 byte strings
appearing in the source are ASCII/latin-1, where this is exact). -/
def strToBytes (s : String) : List Nat := s.data.map Char.toNat

/-- Latin-1 view of a byte string as text (used for dictionary keys that
the source leaves as raw Python 2 `str`). -/
def bytesToStr (l : List Nat) : String := ⟨l.map Char.ofNat⟩

/-- Number of occurrences of a byte in a byte string. -/
def countB (b : Nat) : List Nat → Nat
  | [] => 0
  | c :: rest => (if c = b then 1 else 0) + countB b rest

/-! ### MD5 (`hashlib.md5(...).hexdigest()` from the source)

A faithful executable model of MD5 over byte lists, with all 32-bit
arithmetic done as `Nat` modulo `2 ^ 32`. -/

def m32 : Nat := 4294967296

def add32 (a b : Nat) : Nat := (a + b) % m32

def not32 (a : Nat) : Nat := 4294967295 - a % m32

/-- Left-rotation of a 32-bit word. -/
def rotl32 (x n : Nat) : Nat := ((x % m32) * 2 ^ n + (x % m32) / 2 ^ (32 - n)) % m32

def md5F (b c d : Nat) : Nat := (b &&& c) ||| (not32 b &&& d)
def md5G (b c d : Nat) : Nat := (b &&& d) ||| (c &&& not32 d)
def md5H (b c d : Nat) : Nat := b ^^^ c ^^^ d
def md5I (b c d : Nat) : Nat := c ^^^ (b ||| not32 d)

/-- The 64 MD5 sine-derived round constants. -/
def md5K : List Nat :=
  [0xd76aa478, 0xe8c7b756, 0x242070db, 0xc1bdceee,
   0xf57c0faf, 0x4787c62a, 0xa8304613, 0xfd469501,
   0x698098d8, 0x8b44f7af, 0xffff5bb1, 0x895cd7be,
   0x6b901122, 0xfd987193, 0xa679438e, 0x49b40821,
   0xf61e2562, 0xc040b340, 0x265e5a51, 0xe9b6c7aa,
   0xd62f105d, 0x02441453, 0xd8a1e681, 0xe7d3fbc8,
   0x21e1cde6, 0xc33707d6, 0xf4d50d87, 0x455a14ed,
   0xa9e3e905, 0xfcefa3f8, 0x676f02d9, 0x8d2a4c8a,
   0xfffa3942, 0x8771f681, 0x6d9d6122, 0xfde5380c,
   0xa4beea44, 0x4bdecfa9, 0xf6bb4b60, 0xbebfbc70,
   0x289b7ec6, 0xeaa127fa, 0xd4ef3085, 0x04881d05,
   0xd9d4d039, 0xe6db99e5, 0x1fa27cf8, 0xc4ac5665,
   0xf4292244, 0x432aff97, 0xab9423a7, 0xfc93a039,
   0x655b59c3, 0x8f0ccc92, 0xffeff47d, 0x85845dd1,
   0x6fa87e4f, 0xfe2ce6e0, 0xa3014314, 0x4e0811a1,
   0xf7537e82, 0xbd3af235, 0x2ad7d2bb, 0xeb86d391]

/-- The 64 MD5 per-round left-rotation amounts. -/
def md5S : List Nat :=
  [7, 12, 17, 22, 7, 12, 17, 22, 7, 12, 17, 22, 7, 12, 17, 22,
   5, 9, 14, 20, 5, 9, 14, 20, 5, 9, 14, 20, 5, 9, 14, 20,
   4, 11, 16, 23, 4, 11, 16, 23, 4, 11, 16, 23, 4, 11, 16, 23,
   6, 10, 15, 21, 6, 10, 15, 21, 6, 10, 15, 21, 6, 10, 15, 21]

/-- `count` low-order bytes of `n`, little-endian. -/
def natLEBytes (n : Nat) : Nat → List Nat
  | 0 => []
  | count + 1 => (n % 256) :: natLEBytes (n / 256) count

/-- A 32-bit word from (up to) four little-endian bytes. -/
def wordOfBytes (l : List Nat) : Nat :=
  l.getD 0 0 + 256 * l.getD 1 0 + 65536 * l.getD 2 0 + 16777216 * l.getD 3 0

/-- Cut a list into chunks of `size` elements (fuel-structured so that it
computes by kernel reduction; `fuel ≥ l.length` in every use). -/
def chunkFuel (size : Nat) : Nat → List α → List (List α)
  | _, [] => []
  | 0, l => [l]
  | fuel + 1, l => l.take size :: chunkFuel size fuel (l.drop size)

/-- Cut a list into chunks of `size` elements. -/
def chunkN (size : Nat) (l : List α) : List (List α) := chunkFuel size l.length l

/-- MD5 padding: a `0x80` byte, zeros to 56 mod 64, then the bit length
as eight little-endian bytes. -/
def md5Pad (msg : List Nat) : List Nat :=
  msg ++ 128 :: List.replicate ((56 + 64 - (msg.length + 1) % 64) % 64) 0
      ++ natLEBytes ((msg.length * 8) % 2 ^ 64) 8

/-- One of the 64 MD5 rounds, acting on state `(a, b, c, d)` with the
16-word message schedule `M`. -/
def md5Round (M : List Nat) (st : Nat × Nat × Nat × Nat) (i : Nat) : Nat × Nat × Nat × Nat :=
  let a := st.1
  let b := st.2.1
  let c := st.2.2.1
  let d := st.2.2.2
  let f := if i < 16 then md5F b c d
           else if i < 32 then md5G b c d
           else if i < 48 then md5H b c d
           else md5I b c d
  let g := if i < 16 then i
           else if i < 32 then (5 * i + 1) % 16
           else if i < 48 then (3 * i + 5) % 16
           else (7 * i) % 16
  let rot := rotl32 (a + f + md5K.getD i 0 + M.getD g 0) (md5S.getD i 0)
  (d, add32 b rot, b, c)

/-- Process one 64-byte block. -/
def md5Block (st : Nat × Nat × Nat × Nat) (block : List Nat) : Nat × Nat × Nat × Nat :=
  let M := (chunkN 4 block).map wordOfBytes
  let r := (List.range 64).foldl (md5Round M) st
  (add32 st.1 r.1, add32 st.2.1 r.2.1, add32 st.2.2.1 r.2.2.1, add32 st.2.2.2 r.2.2.2)

def md5Init : Nat × Nat × Nat × Nat := (0x67452301, 0xefcdab89, 0x98badcfe, 0x10325476)

/-- Serialize the final state, little-endian per word. -/
def md5StateBytes (st : Nat × Nat × Nat × Nat) : List Nat :=
  natLEBytes st.1 4 ++ natLEBytes st.2.1 4 ++ natLEBytes st.2.2.1 4 ++ natLEBytes st.2.2.2 4

/-- The 16-byte MD5 digest of a byte string. -/
def md5Digest (msg : List Nat) : List Nat :=
  md5StateBytes ((chunkN 64 (md5Pad msg)).foldl md5Block md5Init)

def hexChar (n : Nat) : Char := Char.ofNat (if n < 10 then 48 + n else 87 + n)

/-- Two lowercase hex characters of a byte. -/
def byteHex (b : Nat) : List Char := [hexChar (b / 16 % 16), hexChar (b % 16)]

/-- `hashlib.md5(msg).hexdigest()`. -/
def md5Hex (msg : List Nat) : String := ⟨catLists ((md5Digest msg).map byteHex)⟩

/-! ### Percent-decoding and UTF-8 (`urllib2.unquote(v).decode("utf8")`) -/

/-- Value of one hex digit character byte, if it is one (Python's
`_hextochr` table accepts both cases). -/
def hexVal (b : Nat) : Option Nat :=
  if 48 ≤ b ∧ b ≤ 57 then some (b - 48)
  else if 65 ≤ b ∧ b ≤ 70 then some (b - 55)
  else if 97 ≤ b ∧ b ≤ 102 then some (b - 87)
  else none

/-- `urllib2.unquote` on a byte string: each `%XX` with two valid hex
digits becomes the byte `0xXX`; a `%` not followed by two hex digits is
kept literally.  Fuel-structured; `fuel ≥ l.length` in every use. -/
def unquoteFuel : Nat → List Nat → List Nat
  | _, [] => []
  | 0, l => l
  | fuel + 1, b :: rest =>
    if b = 37 then
      match rest with
      | h1 :: h2 :: rest2 =>
        match hexVal h1, hexVal h2 with
        | some v1, some v2 => (16 * v1 + v2) :: unquoteFuel fuel rest2
        | _, _ => 37 :: unquoteFuel fuel rest
      | _ => 37 :: unquoteFuel fuel rest
    else b :: unquoteFuel fuel rest

/-- `urllib2.unquote` (single percent-decoding pass). -/
def unquote (l : List Nat) : List Nat := unquoteFuel l.length l

/-- Whether a byte is a UTF-8 continuation byte `0x80..0xBF`. -/
def isCont (b : Nat) : Bool := 128 ≤ b ∧ b < 192

/-- Strict UTF-8 decoding of a byte string (`.decode("utf8")`): rejects
stray continuation bytes, truncated sequences, overlong encodings and
code points above `U+10FFFF`, as the Python 2 codec does.
Fuel-structured; `fuel ≥ l.length` in every use. -/
def utf8DecodeFuel : Nat → List Nat → Option (List Char)
  | _, [] => some []
  | 0, _ => none
  | fuel + 1, b :: rest =>
    if b < 128 then (utf8DecodeFuel fuel rest).map (Char.ofNat b :: ·)
    else if b < 194 then none
    else if b < 224 then
      match rest with
      | b2 :: rest2 =>
        if isCont b2 then
          (utf8DecodeFuel fuel rest2).map (Char.ofNat ((b - 192) * 64 + (b2 - 128)) :: ·)
        else none
      | _ => none
    else if b < 240 then
      match rest with
      | b2 :: b3 :: rest2 =>
        if isCont b2 ∧ isCont b3 ∧ (b = 224 → 160 ≤ b2) then
          (utf8DecodeFuel fuel rest2).map
            (Char.ofNat ((b - 224) * 4096 + (b2 - 128) * 64 + (b3 - 128)) :: ·)
        else none
      | _ => none
    else if b < 245 then
      match rest with
      | b2 :: b3 :: b4 :: rest2 =>
        if isCont b2 ∧ isCont b3 ∧ isCont b4 ∧ (b = 240 → 144 ≤ b2) ∧ (b = 244 → b2 < 144) then
          (utf8DecodeFuel fuel rest2).map
            (Char.ofNat ((b - 240) * 262144 + (b2 - 128) * 4096 + (b3 - 128) * 64 + (b4 - 128)) :: ·)
        else none
      | _ => none
    else none

/-- `.decode("utf8")`, returning `none` where the codec raises. -/
def utf8Decode (l : List Nat) : Option String :=
  (utf8DecodeFuel l.length l).map (fun cs => ⟨cs⟩)

/-! ### Request environment and response bodies

`Env` models the WSGI `environ` mapping: transport fields plus the
pipeline-added `CKAN_*` fields.  A WSGI response body is an iterable of
string chunks; `BodyIter` distinguishes a replayable list body from a
one-shot generator body, because Python's `list(page)` copies the former
but exhausts the latter. -/

structure Env where
  method : String
  pathInfo : String
  queryString : String
  remoteUser : Option String
  wsgiInput : List Nat
  userAgent : String
  remoteAddr : String
  acceptLanguage : Option String
  acceptEncoding : Option String
  ckanLang : Option String
  langIsDefault : Option Bool
deriving DecidableEq, Repr

/-- A WSGI response body: either a replayable list of chunks or a
one-shot generator holding its not-yet-yielded chunks. -/
inductive BodyIter where
  | list (chunks : List String)
  | gen (chunks : List String)
deriving DecidableEq, Repr

/-- The chunk sequence `list(body)` yields (consuming a generator). -/
def produceList : BodyIter → List String
  | .list cs => cs
  | .gen cs => cs

/-- The same body object after `list(body)` has been evaluated: a list
is unaffected, a generator is left exhausted. -/
def afterConsume : BodyIter → BodyIter
  | .list cs => .list cs
  | .gen _ => .gen []

/-- The chunks the transport layer receives when it iterates the body. -/
def drainBody : BodyIter → List String
  | .list cs => cs
  | .gen cs => cs

/-! ### `PageCacheMiddleware` -/

/-- What the wrapped application produces for a request: the status line
and header list it passes to `start_response` (captured by
`_start_response` into `CKAN_PAGE_STATUS` / `CKAN_PAGE_HEADERS`), the
body iterable it returns, and whether it sets the truthy
`CKAN_PAGE_CACHABLE` flag in the environ. -/
structure AppResult where
  status : String
  headers : List (String × String)
  body : BodyIter
  cachable : Bool
deriving DecidableEq, Repr

/-- The wrapped application (`self.app` / `next`). -/
def App : Type := Env → AppResult

/-- A response as delivered to the client: status line, header list and
body iterable. -/
structure CResp where
  status : String
  headers : List (String × String)
  body : BodyIter
deriving DecidableEq, Repr

/-- Passthrough of an application result to the client. -/
def appCResp (r : AppResult) : CResp := ⟨r.status, r.headers, r.body⟩

/-- One cache entry: the three redis list elements written by the
pipelined `rpush`es — status line, header list (whose JSON
serialization round-trips string pairs identically) and the joined
body. -/
structure CacheEntry where
  status : String
  headers : List (String × String)
  body : String
deriving DecidableEq, Repr

/-- The redis backend: whether `self.redis_connection` is established,
and the server's key space.  A write appends, and a read returns the
first entry for the key (`lrange key 0 2` sees the first three pushed
elements). -/
structure CacheState where
  conn : Bool
  store : List (String × CacheEntry)
deriving DecidableEq, Repr

/-- Which backend operations raise `redis.exceptions.ConnectionError`
during one request. -/
structure Fault where
  connectFails : Bool
  lookupFails : Bool
  writeFails : Bool
deriving DecidableEq, Repr

/-- No backend failure. -/
def noFault : Fault := ⟨false, false, false⟩

/-- `lrange key 0 2` against the modelled key space. -/
def lookupStore (store : List (String × CacheEntry)) (k : String) : Option CacheEntry :=
  (store.find? (fun p => p.1 == k)).map (fun p => p.2)

/-- The transactional triple `rpush` (`pipe.execute()`). -/
def writeStore (store : List (String × CacheEntry)) (k : String) (e : CacheEntry) :
    List (String × CacheEntry) :=
  store ++ [(k, e)]

/-- `key = 'page:%s?%s' % (environ['PATH_INFO'], environ['QUERY_STRING'])`. -/
def cacheKey (env : Env) : String :=
  "page:" ++ env.pathInfo ++ "?" ++ env.queryString

/-- Python truthiness of `environ.get('REMOTE_USER')`: present and
non-empty. -/
def remoteUserTruthy (env : Env) : Bool :=
  match env.remoteUser with
  | none => false
  | some s => s != ""

/-- `environ['REQUEST_METHOD'] != 'GET' or environ.get('REMOTE_USER')`. -/
def bypassCache (env : Env) : Bool :=
  env.method != "GET" || remoteUserTruthy env

/-- `environ['CKAN_PAGE_STATUS'].startswith('200')`. -/
def startsWith200 (s : String) : Bool :=
  s.data.take 3 == ['2', '0', '0']

/-- The 4096-byte chunking the cache-hit path applies to the stored
page before returning it. -/
def chunkStr (s : String) : List String :=
  (chunkN 4096 s.data).map (fun l => ⟨l⟩)

/-- `PageCacheMiddleware.__call__` after a connection is available:
lookup, hit replay, or miss with conditional persistence.  `store` is
the redis key space visible over that connection.  An uncaught backend
error is an `Except.error` carrying the state at the raise. -/
def pageCacheServe (store : List (String × CacheEntry)) (f : Fault) (app : App)
    (env : Env) : Except CacheState (CResp × CacheState) :=
  if f.lookupFails then
    -- `except self.redis_exception`: clear the connection, serve live.
    .ok (appCResp (app env), ⟨false, store⟩)
  else
    match lookupStore store (cacheKey env) with
    | some e =>
      -- Hit: replay stored status and headers, chunk the stored body.
      .ok (⟨e.status, e.headers, BodyIter.list (chunkStr e.body)⟩, ⟨true, store⟩)
    | none =>
      let r := app env
      if startsWith200 r.status then
        if r.cachable then
          if f.writeFails then
            -- `pipe.execute()` is not guarded by any try/except: the
            -- ConnectionError propagates and the connection stays set.
            .error ⟨true, store⟩
          else
            .ok (⟨r.status, r.headers, afterConsume r.body⟩,
                 ⟨true, writeStore store (cacheKey env)
                    ⟨r.status, r.headers, strJoin (produceList r.body)⟩⟩)
        else .ok (⟨r.status, r.headers, r.body⟩, ⟨true, store⟩)
      else .ok (⟨r.status, r.headers, r.body⟩, ⟨true, store⟩)

/-- `PageCacheMiddleware.__call__`: bypass for non-GET or
authenticated requests, lazy connect with `flushdb` on establishment,
then serve. -/
def pageCacheCall (st : CacheState) (f : Fault) (app : App) (env : Env) :
    Except CacheState (CResp × CacheState) :=
  if bypassCache env then .ok (appCResp (app env), st)
  else if st.conn then pageCacheServe st.store f app env
  else if f.connectFails then
    -- "Connection may have failed at flush so clear it."
    .ok (appCResp (app env), ⟨false, st.store⟩)
  else
    -- `StrictRedis()` then `flushdb()`: a fresh connection empties the store.
    pageCacheServe [] f app env

/-! ### `I18nMiddleware` -/

/-- `ckan.locale_default` and the configured locale list. -/
structure I18nConfig where
  default_locale : String
  local_list : List String
deriving DecidableEq, Repr

/-- `I18nMiddleware.__call__`, lines 127-139: locale detection and path
rewrite (run only when `CKAN_LANG` is not yet in the environ). -/
def i18nCall (cfg : I18nConfig) (env : Env) : Env :=
  if env.ckanLang.isSome then env
  else
    match pySplit '/' env.pathInfo with
    | _p0 :: p1 :: rest =>
      if p1 ∈ cfg.local_list then
        let env' := { env with ckanLang := some p1, langIsDefault := some false }
        match rest with
        | [] => { env' with pathInfo := "/" }
        | _ :: _ => { env' with pathInfo := joinSlash ("" :: rest) }
      else { env with ckanLang := some cfg.default_locale, langIsDefault := some true }
    | _ => { env with ckanLang := some cfg.default_locale, langIsDefault := some true }

/-! ### `TrackingMiddleware` -/

/-- One row of the `tracking_raw` insert. -/
structure TrackRecord where
  user_key : String
  url : Option String
  tracking_type : Option String
deriving DecidableEq, Repr

/-- The exceptions the tracking body parse can raise: the unpack
`k, v = part.split('=')` fails unless the part has exactly one `=`, and
`.decode("utf8")` fails on invalid UTF-8. -/
inductive TrackErr where
  | unpackError
  | decodeError
deriving DecidableEq, Repr

/-- A response from the tracking middleware or its wrapped app. -/
structure TResp where
  status : String
  headers : List (String × String)
  body : List String
deriving DecidableEq, Repr

/-- `k, v = part.split('='); data[k] = urllib2.unquote(v).decode("utf8")`
for one `&`-separated part. -/
def parsePair (part : List Nat) : Except TrackErr (String × String) :=
  match splitC 61 part with
  | [k, v] =>
    match utf8Decode (unquote v) with
    | some vs => .ok (bytesToStr k, vs)
    | none => .error .decodeError
  | _ => .error .unpackError

/-- Python dict assignment `data[k] = v`. -/
def dictSet (m : List (String × String)) (k v : String) : List (String × String) :=
  if m.any (fun p => p.1 == k) then m.map (fun p => if p.1 == k then (k, v) else p)
  else m ++ [(k, v)]

/-- `data.get(k)`. -/
def dictGet (m : List (String × String)) (k : String) : Option String :=
  (m.find? (fun p => p.1 == k)).map (fun p => p.2)

/-- The parse loop over the `&`-separated parts, accumulating `data`. -/
def parseFold : List (List Nat) → List (String × String) →
    Except TrackErr (List (String × String))
  | [], acc => .ok acc
  | p :: ps, acc =>
    match parsePair p with
    | .error e => .error e
    | .ok (k, v) => parseFold ps (dictSet acc k v)

/-- `parts = payload.split('&')` followed by the parse loop. -/
def parsePayload (payload : List Nat) : Except TrackErr (List (String × String)) :=
  parseFold (splitC 38 payload) []

/-- The anonymized visitor key: md5 of the concatenation of user agent,
remote address, accept-language and accept-encoding. -/
def userKeyOf (env : Env) : String :=
  md5Hex (strToBytes (env.userAgent ++ env.remoteAddr ++
    env.acceptLanguage.getD "" ++ env.acceptEncoding.getD ""))

/-- `TrackingMiddleware.__call__`: intercept `POST /_tracking`, parse
the payload, answer a fixed empty 200 and insert one record; delegate
every other request.  The second component lists the records inserted
while handling the request. -/
def trackingCall (app : Env → TResp) (env : Env) :
    Except TrackErr TResp × List TrackRecord :=
  if env.pathInfo = "/_tracking" ∧ env.method = "POST" then
    match parsePayload env.wsgiInput with
    | .error e => (.error e, [])
    | .ok data =>
      (.ok ⟨"200 OK", [("Content-Type", "text/html")], []⟩,
       [⟨userKeyOf env, dictGet data "url", dictGet data "type"⟩])
  else (.ok (app env), [])

/-! ### `execute_on_completion` / `generate_close_and_callback`

The generator returned by `generate_close_and_callback` is modelled as
a small state machine driven by the consumer's actions (`next()` calls
and `close()`), recording the observable events: yielded chunks, the
inner iterable's `close()`, and runs of the callback. -/

/-- A consumer action on the wrapping generator. -/
inductive Act where
  | next
  | close
deriving DecidableEq, Repr

/-- Observable events of a run. -/
inductive Ev where
  | yielded (chunk : String)
  | innerClosed
  | callbackRun
  | stopIteration
deriving DecidableEq, Repr

/-- Generator lifecycle: not yet started (its body has not run — closing
it here never enters the `try`), suspended at a `yield` with the listed
chunks still to come, or finished. -/
inductive GenSt where
  | unstarted (chunks : List String)
  | suspended (chunks : List String)
  | finished
deriving DecidableEq, Repr

/-- Run the `generate_close_and_callback` generator against a script of
consumer actions.  On `next`: yield the next chunk, or run the
`finally` (callback) and raise `StopIteration` when the loop ends.  On
`close` of a started generator: `GeneratorExit` at the yield, the
`except` closes the inner iterable (when it has `close`), and the
`finally` runs the callback.  On `close` of an unstarted generator the
body never runs. -/
def runGen (hasClose : Bool) : GenSt → List Act → List Ev
  | _, [] => []
  | .unstarted chunks, .next :: acts =>
    match chunks with
    | [] => .callbackRun :: .stopIteration :: runGen hasClose .finished acts
    | c :: cs => .yielded c :: runGen hasClose (.suspended cs) acts
  | .unstarted _, .close :: acts => runGen hasClose .finished acts
  | .suspended chunks, .next :: acts =>
    match chunks with
    | [] => .callbackRun :: .stopIteration :: runGen hasClose .finished acts
    | c :: cs => .yielded c :: runGen hasClose (.suspended cs) acts
  | .suspended _, .close :: acts =>
    (if hasClose then [Ev.innerClosed] else []) ++ .callbackRun :: runGen hasClose .finished acts
  | .finished, _ :: acts => runGen hasClose .finished acts

/-- `execute_on_completion(...)`'s `inner`: if the wrapped application
raises, run the callback once and re-raise; otherwise hand the
application's chunks to `generate_close_and_callback` and run it under
the consumer's script.  Returns the event trace and the propagated
error, if any. -/
def executeOnCompletionRun (hasClose : Bool) (appRes : Except String (List String))
    (script : List Act) : List Ev × Option String :=
  match appRes with
  | .error e => ([.callbackRun], some e)
  | .ok chunks => (runGen hasClose (.unstarted chunks) script, none)

/-- Number of callback runs in a trace. -/
def countCB : List Ev → Nat
  | [] => 0
  | Ev.callbackRun :: rest => countCB rest + 1
  | _ :: rest => countCB rest

/-! ### Claim-side predicates (phrased from the specification's words) -/

/-- The store part of either outcome of a page-cache call (the redis
server's data survives a raised request). -/
def outStore : Except CacheState (CResp × CacheState) → List (String × CacheEntry)
  | .error s => s.store
  | .ok (_, s) => s.store

/-- The numeric-code token of an HTTP status line: its characters up to
the first space. -/
def statusToken (s : String) : String := ⟨s.data.takeWhile (fun c => c != ' ')⟩

/-- The first non-empty `/`-separated segment of a path (the
specification's phrasing of locale detection). -/
def firstNonEmptySeg (path : String) : Option String :=
  (pySplit '/' path).find? (fun s => s != "")

/-- A conventional WSGI path: empty, or starting with `/` but not
with `//`. -/
def wellFormedPath (p : String) : Prop :=
  p = "" ∨ (p.data.take 1 = ['/'] ∧ p.data.take 2 ≠ ['/', '/'])

/-- A malformed tracking pair, in the claim's terms: not exactly one
`=` (byte 61), or a value whose percent-decoded bytes are not valid
UTF-8. -/
def pairMalformed (part : List Nat) : Prop :=
  countB 61 part ≠ 1 ∨ ∃ k v, splitC 61 part = [k, v] ∧ utf8Decode (unquote v) = none

/-- A malformed tracking payload: some `&`-separated part is
malformed. -/
def malformedPayload (payload : List Nat) : Prop :=
  ∃ part, part ∈ splitC 38 payload ∧ pairMalformed part

/-! ### Concrete requests and applications used by witnesses -/

/-- A plain anonymous GET request. -/
def baseEnv : Env :=
  ⟨"GET", "/", "", none, [], "Mozilla/5.0", "10.0.0.1", none, none, none, none⟩

/-- A wrapped application ignoring the request. -/
def constApp (r : AppResult) : App := fun _ => r

def c1Env : Env := { baseEnv with pathInfo := "/dataset", queryString := "q=1" }

def c1App : App :=
  constApp ⟨"200 OK", [("Content-Type", "text/html")], .list ["<html>", "body"], true⟩

def c2App : App :=
  constApp ⟨"200 OK", [("Content-Type", "text/html")], .list ["page"], true⟩

def c4App : App :=
  constApp ⟨"200 OK", [("Content-Type", "text/html")], .gen ["hello"], true⟩

def c5App : App :=
  constApp ⟨"404 Not Found", [("Content-Type", "text/html")], .list ["missing"], false⟩

def c9Env : Env :=
  { baseEnv with
    method := "POST", pathInfo := "/_tracking",
    wsgiInput := strToBytes "url=http%3A%2F%2Fx&type=view" }

def c9App : Env → TResp := fun _ => ⟨"404 Not Found", [], []⟩

def c10Env : Env :=
  { baseEnv with
    method := "POST", pathInfo := "/_tracking",
    wsgiInput := strToBytes "noequalshere" }

/-! ## Helper lemmas -/

theorem strExt {s t : String} (h : s.data = t.data) : s = t := by
  cases s
  cases t
  exact congrArg String.mk h

theorem strData_append (s t : String) : (s ++ t).data = s.data ++ t.data := by
  cases s; cases t; rfl

theorem catLists_chunkFuel (size : Nat) :
    ∀ (fuel : Nat) (l : List α), catLists (chunkFuel size fuel l) = l := by
  intro fuel
  induction fuel with
  | zero =>
    intro l
    cases l with
    | nil => rfl
    | cons c cs => simp [chunkFuel, catLists]
  | succ n ih =>
    intro l
    cases l with
    | nil => rfl
    | cons c cs =>
      simp only [chunkFuel, catLists, ih]
      exact List.take_append_drop _ _

theorem strJoin_chunkStr (s : String) : strJoin (chunkStr s) = s := by
  apply strExt
  simp only [strJoin, chunkStr, chunkN, List.map_map]
  have : (String.data ∘ fun l => (⟨l⟩ : String)) = id := rfl
  rw [this, List.map_id]
  exact catLists_chunkFuel 4096 s.data.length s.data

theorem lookupStore_nil (k : String) : lookupStore [] k = none := rfl

theorem lookupStore_append_self (s : List (String × CacheEntry)) (k : String)
    (e : CacheEntry) (h : lookupStore s k = none) :
    lookupStore (writeStore s k e) k = some e := by
  induction s with
  | nil => simp [lookupStore, writeStore, List.find?]
  | cons p ps ih =>
    simp only [lookupStore, writeStore, List.cons_append, List.find?] at *
    cases hb : (p.1 == k) with
    | true => simp [hb] at h
    | false =>
      simp only [hb] at h ⊢
      exact ih h

theorem takeWhile_eq_take_len (p : α → Bool) (l : List α) :
    l.takeWhile p = l.take (l.takeWhile p).length := by
  induction l with
  | nil => rfl
  | cons a as ih =>
    cases hp : p a with
    | true => simp [List.takeWhile, hp, ih.symm]
    | false => simp [List.takeWhile, hp]

theorem statusToken_of_startsWith200 (s : String) (h : startsWith200 s = true)
    (h3 : (statusToken s).data.length = 3) : statusToken s = "200" := by
  apply strExt
  simp only [statusToken] at h3 ⊢
  rw [takeWhile_eq_take_len _ s.data, h3]
  simpa [startsWith200] using h

theorem md5Hex_len (msg : List Nat) : (md5Hex msg).data.length = 32 := by
  have hb : ∀ (bs : List Nat), (catLists (bs.map byteHex)).length = 2 * bs.length := by
    intro bs
    induction bs with
    | nil => rfl
    | cons b rest ih =>
      simp only [List.map_cons, catLists, byteHex, List.length_append,
        List.length_cons, List.length_nil, ih, List.length_map]
      omega
  have hle : ∀ (n c : Nat), (natLEBytes n c).length = c := by
    intro n c
    induction c generalizing n with
    | zero => rfl
    | succ k ih => simp [natLEBytes, ih]
  simp only [md5Hex, md5Digest, md5StateBytes]
  rw [hb]
  simp [hle]

theorem md5Hex_ne_empty (msg : List Nat) : md5Hex msg ≠ "" := by
  intro h
  have h32 := md5Hex_len msg
  rw [h] at h32
  exact absurd h32 (by decide)

/-! ## Claims -/

/-- **C8.** The cache key is the literal `page:` + exact path + `?` +
raw query string; the query-empty case produces a trailing `?`; two
requests agreeing on path and query string get the same key no matter
how every other field (headers, user, body) differs. -/
theorem cacheKey_format (env : Env) :
    cacheKey env = "page:" ++ env.pathInfo ++ "?" ++ env.queryString ∧
    (env.queryString = "" → ∃ p, cacheKey env = p ++ "?") ∧
    (∀ env₂ : Env, env₂.pathInfo = env.pathInfo → env₂.queryString = env.queryString →
      cacheKey env₂ = cacheKey env) := by
  refine ⟨rfl, ?_, ?_⟩
  · intro hq
    refine ⟨"page:" ++ env.pathInfo, ?_⟩
    apply strExt
    simp [cacheKey, hq, strData_append]
  · intro env₂ hp hq
    simp [cacheKey, hp, hq]

/-- Witness for C8 at a concrete request: key of `/a/b?x=1`, key
equality across differing headers, and the trailing `?`. -/
theorem cacheKey_format_witness :
    cacheKey { baseEnv with pathInfo := "/a/b", queryString := "x=1" } =
      "page:" ++ "/a/b" ++ "?" ++ "x=1" ∧
    (∃ p, cacheKey { baseEnv with pathInfo := "/a/b" } = p ++ "?") ∧
    cacheKey { baseEnv with pathInfo := "/a/b", queryString := "x=1",
                            userAgent := "other", remoteUser := some "" } =
      cacheKey { baseEnv with pathInfo := "/a/b", queryString := "x=1" } := by
  refine ⟨(cacheKey_format _).1, (cacheKey_format _).2.1 rfl, ?_⟩
  exact (cacheKey_format { baseEnv with pathInfo := "/a/b", queryString := "x=1" }).2.2
    _ rfl rfl

/-- **C6.** A request that is not a GET, or that carries a (truthy)
`REMOTE_USER` marker, is handed directly to the wrapped application:
the client gets the application's live response and the cache state —
connection and store — is untouched, under any fault pattern. -/
theorem pagecache_bypass (st : CacheState) (f : Fault) (app : App) (env : Env)
    (h : env.method ≠ "GET" ∨ remoteUserTruthy env = true) :
    pageCacheCall st f app env = .ok (appCResp (app env), st) := by
  have hb : bypassCache env = true := by
    rcases h with h | h
    · simp [bypassCache, bne_iff_ne, h]
    · simp [bypassCache, h]
  simp [pageCacheCall, hb]

/-- Witness for C6: a POST request and a logged-in GET request are both
served live with the store untouched. -/
theorem pagecache_bypass_witness :
    pageCacheCall ⟨true, []⟩ noFault c1App { baseEnv with method := "POST" } =
      .ok (appCResp (c1App { baseEnv with method := "POST" }), ⟨true, []⟩) ∧
    pageCacheCall ⟨true, []⟩ noFault c1App { baseEnv with remoteUser := some "joe" } =
      .ok (appCResp (c1App { baseEnv with remoteUser := some "joe" }), ⟨true, []⟩) := by
  constructor
  · exact pagecache_bypass _ _ _ _ (Or.inl (by decide))
  · exact pagecache_bypass _ _ _ _ (Or.inr (by decide))

/-- **C4** (code bug). On a cachable 200 miss the source runs
`page_string = ''.join(list(page))` and then `return page`.  When the
wrapped application's body is a one-shot generator — which the same
file's `execute_on_completion` wrapping produces by default —
`list(page)` exhausts it, so the client receives an EMPTY body even
though the application produced `"hello"`: buffering for the cache
write destroys the client-facing response.  (The cache itself stores
the full body, as the written entry shows.) -/
theorem pagecache_gen_body_lost :
    pageCacheCall ⟨true, []⟩ noFault c4App { baseEnv with pathInfo := "/a" } =
      .ok (⟨"200 OK", [("Content-Type", "text/html")], BodyIter.gen []⟩,
           ⟨true, [("page:/a?", ⟨"200 OK", [("Content-Type", "text/html")], "hello"⟩)]⟩) ∧
    drainBody (BodyIter.gen []) = [] ∧
    produceList (c4App { baseEnv with pathInfo := "/a" }).body = ["hello"] ∧
    ([] : List String) ≠ ["hello"] := by
  refine ⟨?_, rfl, rfl, by decide⟩
  rfl

/-- Store preservation for the post-connect phase: unless the observed
status passes `startswith('200')` and the cachable flag is set, every
key of the resulting store is either absent or unchanged. -/
theorem serve_store_guard (store : List (String × CacheEntry)) (f : Fault) (app : App)
    (env : Env)
    (h3 : (statusToken (app env).status).data.length = 3)
    (hnc : ¬(statusToken (app env).status = "200" ∧ (app env).cachable = true)) :
    ∀ k, lookupStore (outStore (pageCacheServe store f app env)) k = none ∨
         lookupStore (outStore (pageCacheServe store f app env)) k = lookupStore store k := by
  intro k
  by_cases hl : f.lookupFails = true
  · right
    simp [pageCacheServe, hl, outStore]
  · cases hfind : lookupStore store (cacheKey env) with
    | some e =>
      right
      simp [pageCacheServe, hl, hfind, outStore]
    | none =>
      by_cases hsw : startsWith200 (app env).status = true
      · by_cases hc : (app env).cachable = true
        · exact absurd ⟨statusToken_of_startsWith200 _ hsw h3, hc⟩ hnc
        · right
          simp [pageCacheServe, hl, hfind, hsw, hc, outStore]
      · right
        simp [pageCacheServe, hl, hfind, hsw, outStore]

/-- **C5.** The cache persists only responses whose observed status line
has code 200 and whose request carries the cachability flag: for any
request on which one of the two fails (assuming the well-formed
three-character status code every HTTP status line has), no key of the
store gains or changes an entry — whatever faults occur, whether the
call bypasses, hits, misses or raises. -/
theorem pagecache_persist_guard (st : CacheState) (f : Fault) (app : App) (env : Env)
    (h3 : (statusToken (app env).status).data.length = 3)
    (hnc : ¬(statusToken (app env).status = "200" ∧ (app env).cachable = true)) :
    ∀ k, lookupStore (outStore (pageCacheCall st f app env)) k = none ∨
         lookupStore (outStore (pageCacheCall st f app env)) k = lookupStore st.store k := by
  intro k
  by_cases hb : bypassCache env = true
  · right
    simp [pageCacheCall, hb, outStore]
  · cases hconn : st.conn with
    | true =>
      simp only [pageCacheCall, hb, if_false, hconn, if_true, Bool.false_eq_true]
      exact serve_store_guard st.store f app env h3 hnc k
    | false =>
      by_cases hcf : f.connectFails = true
      · right
        simp [pageCacheCall, hb, hconn, hcf, outStore]
      · simp only [pageCacheCall, hb, if_false, hconn, hcf, Bool.false_eq_true]
        rcases serve_store_guard [] f app env h3 hnc k with h | h
        · left
          exact h
        · left
          rw [h]
          rfl

/-- Witness for C5: a non-200, non-cachable response on a fresh miss
leaves every key (in particular its own) unwritten. -/
theorem pagecache_persist_guard_witness :
    (statusToken (c5App baseEnv).status).data.length = 3 ∧
    ¬(statusToken (c5App baseEnv).status = "200" ∧ (c5App baseEnv).cachable = true) ∧
    (lookupStore (outStore (pageCacheCall ⟨true, []⟩ noFault c5App baseEnv)) "page:/?" = none ∨
     lookupStore (outStore (pageCacheCall ⟨true, []⟩ noFault c5App baseEnv)) "page:/?" =
       lookupStore (⟨true, []⟩ : CacheState).store "page:/?") := by
  refine ⟨by decide, by decide, ?_⟩
  exact pagecache_persist_guard ⟨true, []⟩ noFault c5App baseEnv (by decide) (by decide)
    "page:/?"

/-- **C2** (amended).  For anonymous GET requests: a backend failure at
connection establishment or at lookup is caught — the original uncached
response is delivered unchanged and the shared connection is cleared so
the next request retries.  A failure at the persistence write, however,
is NOT caught by the source (`pipe.execute()` has no try/except): it
propagates to the client and the connection is not cleared. -/
theorem pagecache_backend_failure (st : CacheState) (f : Fault) (app : App) (env : Env)
    (hm : env.method = "GET") (hu : remoteUserTruthy env = false) :
    (st.conn = false → f.connectFails = true →
      pageCacheCall st f app env = .ok (appCResp (app env), ⟨false, st.store⟩)) ∧
    (st.conn = true → f.lookupFails = true →
      pageCacheCall st f app env = .ok (appCResp (app env), ⟨false, st.store⟩)) ∧
    (st.conn = true → f.lookupFails = false →
      lookupStore st.store (cacheKey env) = none →
      startsWith200 (app env).status = true → (app env).cachable = true →
      f.writeFails = true →
      pageCacheCall st f app env = .error ⟨true, st.store⟩) := by
  have hb : bypassCache env = false := by simp [bypassCache, hm, hu]
  refine ⟨?_, ?_, ?_⟩
  · intro hconn hcf
    simp [pageCacheCall, hb, hconn, hcf]
  · intro hconn hl
    simp [pageCacheCall, pageCacheServe, hb, hconn, hl]
  · intro hconn hl hmiss hsw hc hw
    simp [pageCacheCall, pageCacheServe, hb, hconn, hl, hmiss, hsw, hc, hw]

/-- Counterexample for C2 as stated: with an established connection and
a cachable 200 miss, a backend failure at the persistence write makes
the call raise (`Except.error`) instead of delivering the uncached
response, and the shared connection is still set afterwards. -/
theorem pagecache_write_failure_raises :
    pageCacheCall ⟨true, []⟩ ⟨false, false, true⟩ c2App baseEnv =
      .error ⟨true, []⟩ ∧
    (⟨true, ([] : List (String × CacheEntry))⟩ : CacheState).conn = true := by
  exact ⟨rfl, rfl⟩

/-- Witness for C2 (amended) at concrete requests: connect failure and
lookup failure both fall back to the live response with a cleared
connection; write failure raises. -/
theorem pagecache_backend_failure_witness :
    (pageCacheCall ⟨false, []⟩ ⟨true, false, false⟩ c2App baseEnv =
      .ok (appCResp (c2App baseEnv), ⟨false, []⟩)) ∧
    (pageCacheCall ⟨true, []⟩ ⟨false, true, false⟩ c2App baseEnv =
      .ok (appCResp (c2App baseEnv), ⟨false, []⟩)) ∧
    (pageCacheCall ⟨true, []⟩ ⟨false, false, true⟩ c2App baseEnv =
      .error ⟨true, []⟩) := by
  refine ⟨?_, ?_, ?_⟩
  · exact (pagecache_backend_failure ⟨false, []⟩ ⟨true, false, false⟩ c2App baseEnv
      rfl rfl).1 rfl rfl
  · exact (pagecache_backend_failure ⟨true, []⟩ ⟨false, true, false⟩ c2App baseEnv
      rfl rfl).2.1 rfl rfl
  · exact (pagecache_backend_failure ⟨true, []⟩ ⟨false, false, true⟩ c2App baseEnv
      rfl rfl).2.2 rfl rfl rfl rfl rfl rfl

/-- **C1.** On a fresh anonymous GET miss whose response has a
200 status and the cachable flag, the entry is persisted, and ANY
subsequent request with the same path and query string (anonymous GET)
is answered from the cache with byte-identical status line, header list
and body — independently of the wrapped application, which is therefore
never invoked on the second request. -/
theorem pagecache_roundtrip (st : CacheState) (app : App) (env₁ env₂ : Env)
    (hconn : st.conn = true)
    (hmiss : lookupStore st.store (cacheKey env₁) = none)
    (hm1 : env₁.method = "GET") (hu1 : remoteUserTruthy env₁ = false)
    (hs : startsWith200 (app env₁).status = true)
    (hc : (app env₁).cachable = true)
    (hm2 : env₂.method = "GET") (hu2 : remoteUserTruthy env₂ = false)
    (hp : env₂.pathInfo = env₁.pathInfo) (hq : env₂.queryString = env₁.queryString) :
    ∃ st₂ resp₂,
      pageCacheCall st noFault app env₁ =
        .ok (⟨(app env₁).status, (app env₁).headers, afterConsume (app env₁).body⟩, st₂) ∧
      (∀ app₂ : App, pageCacheCall st₂ noFault app₂ env₂ = .ok (resp₂, st₂)) ∧
      resp₂.status = (app env₁).status ∧
      resp₂.headers = (app env₁).headers ∧
      strJoin (drainBody resp₂.body) = strJoin (produceList (app env₁).body) := by
  have hb1 : bypassCache env₁ = false := by simp [bypassCache, hm1, hu1]
  have hb2 : bypassCache env₂ = false := by simp [bypassCache, hm2, hu2]
  have hkey : cacheKey env₂ = cacheKey env₁ := by simp [cacheKey, hp, hq]
  refine ⟨⟨true, writeStore st.store (cacheKey env₁)
            ⟨(app env₁).status, (app env₁).headers, strJoin (produceList (app env₁).body)⟩⟩,
          ⟨(app env₁).status, (app env₁).headers,
            BodyIter.list (chunkStr (strJoin (produceList (app env₁).body)))⟩,
          ?_, ?_, rfl, rfl, ?_⟩
  · simp [pageCacheCall, pageCacheServe, hb1, hconn, hmiss, hs, hc, noFault]
  · intro app₂
    have hfind : lookupStore
        (writeStore st.store (cacheKey env₁)
          ⟨(app env₁).status, (app env₁).headers, strJoin (produceList (app env₁).body)⟩)
        (cacheKey env₂) =
        some ⟨(app env₁).status, (app env₁).headers, strJoin (produceList (app env₁).body)⟩ := by
      rw [hkey]
      exact lookupStore_append_self _ _ _ hmiss
    simp [pageCacheCall, pageCacheServe, hb2, hfind, noFault]
  · simp [drainBody, strJoin_chunkStr]

/-- Witness for C1 at a concrete request: miss, persist, then a
byte-identical cache hit. -/
theorem pagecache_roundtrip_witness :
    (⟨true, ([] : List (String × CacheEntry))⟩ : CacheState).conn = true ∧
    lookupStore ([] : List (String × CacheEntry)) (cacheKey c1Env) = none ∧
    startsWith200 (c1App c1Env).status = true ∧
    (c1App c1Env).cachable = true ∧
    (∃ st₂ resp₂,
      pageCacheCall ⟨true, []⟩ noFault c1App c1Env =
        .ok (⟨(c1App c1Env).status, (c1App c1Env).headers,
              afterConsume (c1App c1Env).body⟩, st₂) ∧
      (∀ app₂ : App, pageCacheCall st₂ noFault app₂ c1Env = .ok (resp₂, st₂)) ∧
      resp₂.status = (c1App c1Env).status ∧
      resp₂.headers = (c1App c1Env).headers ∧
      strJoin (drainBody resp₂.body) = strJoin (produceList (c1App c1Env).body)) := by
  refine ⟨rfl, rfl, rfl, rfl, ?_⟩
  exact pagecache_roundtrip ⟨true, []⟩ c1App c1Env c1Env rfl rfl rfl rfl rfl rfl rfl
    rfl rfl rfl

/-- A finished generator produces no further events. -/
theorem runGen_finished (hcl : Bool) (acts : List Act) :
    runGen hcl .finished acts = [] := by
  induction acts with
  | nil => rfl
  | cons a as ih => cases a <;> simp [runGen, ih]

theorem runGen_susp_next_nil (hcl : Bool) (acts : List Act) :
    runGen hcl (.suspended []) (Act.next :: acts) =
      Ev.callbackRun :: Ev.stopIteration :: runGen hcl .finished acts := rfl

theorem runGen_susp_next_cons (hcl : Bool) (c : String) (cs : List String)
    (acts : List Act) :
    runGen hcl (.suspended (c :: cs)) (Act.next :: acts) =
      Ev.yielded c :: runGen hcl (.suspended cs) acts := rfl

theorem runGen_unstarted_next_nil (hcl : Bool) (acts : List Act) :
    runGen hcl (.unstarted []) (Act.next :: acts) =
      Ev.callbackRun :: Ev.stopIteration :: runGen hcl .finished acts := rfl

theorem runGen_unstarted_next_cons (hcl : Bool) (c : String) (cs : List String)
    (acts : List Act) :
    runGen hcl (.unstarted (c :: cs)) (Act.next :: acts) =
      Ev.yielded c :: runGen hcl (.suspended cs) acts := rfl

theorem runGen_susp_close (hcl : Bool) (cs : List String) (acts : List Act) :
    runGen hcl (.suspended cs) (Act.close :: acts) =
      (if hcl then [Ev.innerClosed] else []) ++
        Ev.callbackRun :: runGen hcl .finished acts := rfl

theorem countCB_yielded (c : String) (l : List Ev) :
    countCB (Ev.yielded c :: l) = countCB l := rfl

/-- Full drain of a suspended generator: every chunk is yielded, then
the callback runs, then `StopIteration` is raised. -/
theorem runGen_drain_suspended (hcl : Bool) (cs : List String) :
    runGen hcl (.suspended cs) (List.replicate (cs.length + 1) Act.next) =
      cs.map Ev.yielded ++ [Ev.callbackRun, Ev.stopIteration] := by
  induction cs with
  | nil => rfl
  | cons c cs ih =>
    rw [List.length_cons, List.replicate_succ, runGen_susp_next_cons, ih]
    rfl

/-- Full drain from the unstarted state. -/
theorem runGen_drain (hcl : Bool) (cs : List String) :
    runGen hcl (.unstarted cs) (List.replicate (cs.length + 1) Act.next) =
      cs.map Ev.yielded ++ [Ev.callbackRun, Ev.stopIteration] := by
  cases cs with
  | nil => rfl
  | cons c cs =>
    rw [List.length_cons, List.replicate_succ, runGen_unstarted_next_cons,
      runGen_drain_suspended]
    rfl

/-- Early close of a suspended generator after any number of reads runs
the callback exactly once. -/
theorem runGen_close_suspended (hcl : Bool) :
    ∀ (k : Nat) (cs : List String),
      countCB (runGen hcl (.suspended cs) (List.replicate k Act.next ++ [Act.close])) = 1 := by
  intro k
  induction k with
  | zero =>
    intro cs
    rw [List.replicate_zero, List.nil_append, runGen_susp_close, runGen_finished]
    cases hcl <;> rfl
  | succ k ih =>
    intro cs
    rw [List.replicate_succ, List.cons_append]
    cases cs with
    | nil =>
      rw [runGen_susp_next_nil, runGen_finished]
      rfl
    | cons c cs' =>
      rw [runGen_susp_next_cons, countCB_yielded]
      exact ih cs'

/-- **C3.** Through `execute_on_completion`, the callback runs exactly
once per request in each completion mode: (i) if the wrapped handler
raises before producing a stream, the callback runs once and the
original error re-propagates unchanged; (ii) on a normal full drain the
trace is exactly all chunks, then the callback, then `StopIteration`
(so one callback run, after the stream is drained, and no error);
(iii) if the consumer stops reading early — closing after at least one
read — the callback still runs exactly once. -/
theorem completion_callback_exactly_once (hcl : Bool) (chunks : List String) (e : String)
    (script : List Act) (k : Nat) :
    (executeOnCompletionRun hcl (.error e) script = ([Ev.callbackRun], some e)) ∧
    ((executeOnCompletionRun hcl (.ok chunks) (List.replicate (chunks.length + 1) Act.next)).1 =
        chunks.map Ev.yielded ++ [Ev.callbackRun, Ev.stopIteration] ∧
      countCB (executeOnCompletionRun hcl (.ok chunks)
        (List.replicate (chunks.length + 1) Act.next)).1 = 1 ∧
      (executeOnCompletionRun hcl (.ok chunks)
        (List.replicate (chunks.length + 1) Act.next)).2 = none) ∧
    (1 ≤ k →
      countCB (executeOnCompletionRun hcl (.ok chunks)
        (List.replicate k Act.next ++ [Act.close])).1 = 1) := by
  have hcount : ∀ (cs : List String),
      countCB (cs.map Ev.yielded ++ [Ev.callbackRun, Ev.stopIteration]) = 1 := by
    intro cs
    induction cs with
    | nil => rfl
    | cons c cs ih => rw [List.map_cons, List.cons_append, countCB_yielded]; exact ih
  refine ⟨rfl, ⟨?_, ?_, rfl⟩, ?_⟩
  · exact runGen_drain hcl chunks
  · show countCB (runGen hcl (.unstarted chunks) _) = 1
    rw [runGen_drain hcl chunks]
    exact hcount chunks
  · intro hk
    obtain ⟨k', rfl⟩ : ∃ k', k = k' + 1 := ⟨k - 1, by omega⟩
    show countCB (runGen hcl (.unstarted chunks) _) = 1
    rw [List.replicate_succ, List.cons_append]
    cases chunks with
    | nil =>
      rw [runGen_unstarted_next_nil, runGen_finished]
      rfl
    | cons c cs =>
      rw [runGen_unstarted_next_cons, countCB_yielded]
      exact runGen_close_suspended hcl k' cs

/-- Witness for C3 at a concrete stream: two chunks, a raising handler,
and an early close after one read. -/
theorem completion_callback_exactly_once_witness :
    (executeOnCompletionRun true (.error "boom") [] = ([Ev.callbackRun], some "boom")) ∧
    countCB (executeOnCompletionRun true (.ok ["a", "b"])
      (List.replicate 3 Act.next)).1 = 1 ∧
    (1 ≤ 1) ∧
    countCB (executeOnCompletionRun true (.ok ["a", "b"])
      (List.replicate 1 Act.next ++ [Act.close])).1 = 1 := by
  refine ⟨(completion_callback_exactly_once true ["a", "b"] "boom" [] 1).1,
    ?_, by decide,
    (completion_callback_exactly_once true ["a", "b"] "boom" [] 1).2.2 (by decide)⟩
  exact (completion_callback_exactly_once true ["a", "b"] "boom" [] 1).2.1.2.1

/-- **C9.** On a well-formed POST to the tracking path: the tracker
inserts exactly one record whose url and type fields are the parsed
(single-pass percent-decoded) payload values, whose user key is the
md5 of the four identifying headers — non-empty, and equal across any
two requests with identical user-agent, remote address,
accept-language and accept-encoding — and answers `200 OK` with an
empty body and `Content-Type: text/html`, without invoking the wrapped
application. -/
theorem tracking_insert (app : Env → TResp) (env : Env) (m : List (String × String))
    (hp : env.pathInfo = "/_tracking") (hm : env.method = "POST")
    (hok : parsePayload env.wsgiInput = .ok m) :
    trackingCall app env =
      (.ok ⟨"200 OK", [("Content-Type", "text/html")], []⟩,
       [⟨userKeyOf env, dictGet m "url", dictGet m "type"⟩]) ∧
    (∀ app₂ : Env → TResp, trackingCall app₂ env = trackingCall app env) ∧
    userKeyOf env ≠ "" ∧
    (∀ env₂ : Env, env₂.userAgent = env.userAgent → env₂.remoteAddr = env.remoteAddr →
      env₂.acceptLanguage = env.acceptLanguage → env₂.acceptEncoding = env.acceptEncoding →
      userKeyOf env₂ = userKeyOf env) := by
  have hcall : trackingCall app env =
      (.ok ⟨"200 OK", [("Content-Type", "text/html")], []⟩,
       [⟨userKeyOf env, dictGet m "url", dictGet m "type"⟩]) := by
    simp [trackingCall, hp, hm, hok]
  refine ⟨hcall, ?_, md5Hex_ne_empty _, ?_⟩
  · intro app₂
    rw [hcall]
    simp [trackingCall, hp, hm, hok]
  · intro env₂ h1 h2 h3 h4
    simp [userKeyOf, h1, h2, h3, h4]

/-- Witness for C9: the specification's example payload
`url=http%3A%2F%2Fx&type=view`. -/
theorem tracking_insert_witness :
    parsePayload c9Env.wsgiInput = .ok [("url", "http://x"), ("type", "view")] ∧
    trackingCall c9App c9Env =
      (.ok ⟨"200 OK", [("Content-Type", "text/html")], []⟩,
       [⟨userKeyOf c9Env, some "http://x", some "view"⟩]) ∧
    userKeyOf c9Env ≠ "" ∧
    userKeyOf { c9Env with wsgiInput := [], pathInfo := "/other" } = userKeyOf c9Env := by
  have h := tracking_insert c9App c9Env [("url", "http://x"), ("type", "view")]
    rfl rfl rfl
  exact ⟨rfl, h.1, h.2.2.1, h.2.2.2 _ rfl rfl rfl rfl⟩

/-- `split` always yields at least one part. -/
theorem splitC_shape [DecidableEq α] (sep : α) (l : List α) :
    ∃ p ps, splitC sep l = p :: ps := by
  cases l with
  | nil => exact ⟨[], [], rfl⟩
  | cons c rest =>
    rcases h : splitC sep rest with _ | ⟨p, ps⟩
    · exact ⟨[], [], by simp [splitC, h]⟩
    · by_cases hc : c = sep
      · exact ⟨[], p :: ps, by simp [splitC, h, hc]⟩
      · exact ⟨c :: p, ps, by simp [splitC, h, hc]⟩

/-- The number of parts is one more than the number of separators, so
"exactly one `=`" is the same as "exactly two parts". -/
theorem splitC_len (sep : Nat) (l : List Nat) :
    (splitC sep l).length = countB sep l + 1 := by
  induction l with
  | nil => rfl
  | cons c rest ih =>
    obtain ⟨p, ps, hps⟩ := splitC_shape sep rest
    rw [hps] at ih
    by_cases hc : c = sep
    · simp only [splitC, hps, if_pos hc, List.length_cons, countB, if_pos hc] at *
      omega
    · simp only [splitC, hps, if_neg hc, List.length_cons, countB, if_neg hc] at *
      omega

/-- A malformed pair makes `parsePair` raise. -/
theorem parsePair_error_of_malformed (part : List Nat) (h : pairMalformed part) :
    ∃ e, parsePair part = .error e := by
  rcases h with hcnt | ⟨k, v, hsp, hdec⟩
  · have hlen : (splitC 61 part).length ≠ 2 := by
      rw [splitC_len]
      omega
    rcases hsp : splitC 61 part with _ | ⟨k, _ | ⟨v, _ | ⟨w, ws⟩⟩⟩
    · exact ⟨.unpackError, by simp [parsePair, hsp]⟩
    · exact ⟨.unpackError, by simp [parsePair, hsp]⟩
    · exact absurd (by rw [hsp]; rfl) hlen
    · exact ⟨.unpackError, by simp [parsePair, hsp]⟩
  · exact ⟨.decodeError, by simp [parsePair, hsp, hdec]⟩

/-- If any part of the payload fails to parse, the whole parse loop
raises. -/
theorem parseFold_error (parts : List (List Nat)) :
    ∀ acc, (∃ p, p ∈ parts ∧ ∃ e, parsePair p = .error e) →
      ∃ e, parseFold parts acc = .error e := by
  induction parts with
  | nil =>
    intro acc h
    rcases h with ⟨p, hp, _⟩
    cases hp
  | cons q qs ih =>
    intro acc h
    rcases h with ⟨p, hp, e, he⟩
    cases hq : parsePair q with
    | error e' => exact ⟨e', by simp [parseFold, hq]⟩
    | ok kv =>
      obtain ⟨k, v⟩ := kv
      rcases List.mem_cons.mp hp with rfl | hmem
      · rw [hq] at he
        cases he
      · obtain ⟨e', he'⟩ := ih (dictSet acc k v) ⟨p, hmem, e, he⟩
        exact ⟨e', by simp [parseFold, hq, he']⟩

/-- **C10.** A POST to the tracking path with a malformed payload —
some `&`-separated part without exactly one `=`, or a value whose
percent-decoded bytes are invalid UTF-8 — makes the tracker raise: the
parse failure propagates as a request-level error, and no record is
inserted. -/
theorem tracking_malformed_raises (app : Env → TResp) (env : Env)
    (hp : env.pathInfo = "/_tracking") (hm : env.method = "POST")
    (hmal : malformedPayload env.wsgiInput) :
    (∃ e, (trackingCall app env).1 = .error e) ∧ (trackingCall app env).2 = [] := by
  obtain ⟨part, hmem, hpm⟩ := hmal
  obtain ⟨e, he⟩ := parsePair_error_of_malformed part hpm
  obtain ⟨e', hfold⟩ := parseFold_error (splitC 38 env.wsgiInput) [] ⟨part, hmem, e, he⟩
  have hpay : parsePayload env.wsgiInput = .error e' := hfold
  constructor
  · exact ⟨e', by simp [trackingCall, hp, hm, hpay]⟩
  · simp [trackingCall, hp, hm, hpay]

/-- Witness for C10: the payload `noequalshere` (no `=` in its only
part) raises and inserts nothing. -/
theorem tracking_malformed_raises_witness :
    malformedPayload c10Env.wsgiInput ∧
    (∃ e, (trackingCall c9App c10Env).1 = .error e) ∧
    (trackingCall c9App c10Env).2 = [] := by
  have hmal : malformedPayload c10Env.wsgiInput :=
    ⟨strToBytes "noequalshere", by decide, Or.inl (by decide)⟩
  have h := tracking_malformed_raises c9App c10Env rfl rfl hmal
  exact ⟨hmal, h.1, h.2⟩

theorem splitC_cons_sep [DecidableEq α] (sep : α) (l : List α) :
    splitC sep (sep :: l) = [] :: splitC sep l := by
  obtain ⟨p, ps, hps⟩ := splitC_shape sep l
  simp [splitC, hps]

theorem splitC_cons_ne [DecidableEq α] (sep c : α) (l : List α) (p : List α)
    (ps : List (List α)) (hc : c ≠ sep) (hps : splitC sep l = p :: ps) :
    splitC sep (c :: l) = (c :: p) :: ps := by
  simp [splitC, hps, hc]

/-- Splitting and rejoining on the same separator is the identity. -/
theorem joinC_splitC [DecidableEq α] (sep : α) (l : List α) :
    joinC sep (splitC sep l) = l := by
  induction l with
  | nil => rfl
  | cons c rest ih =>
    obtain ⟨p, ps, hps⟩ := splitC_shape sep rest
    rw [hps] at ih
    by_cases hc : c = sep
    · subst hc
      rw [splitC_cons_sep, hps]
      rw [show joinC c ([] :: p :: ps) = [] ++ c :: joinC c (p :: ps) from rfl]
      rw [List.nil_append, ih]
    · rw [splitC_cons_ne sep c rest p ps hc hps]
      cases ps with
      | nil =>
        have hpr : p = rest := ih
        rw [show joinC sep [c :: p] = c :: p from rfl, hpr]
      | cons q qs =>
        rw [show joinC sep ((c :: p) :: q :: qs) = (c :: p) ++ sep :: joinC sep (q :: qs)
          from rfl]
        rw [show joinC sep (p :: q :: qs) = p ++ sep :: joinC sep (q :: qs) from rfl] at ih
        rw [List.cons_append, ih]

/-- `'/'.join` on strings agrees with `joinC '/'` on the raw data. -/
theorem joinSlash_data : ∀ (L : List (List Char)),
    (joinSlash (L.map (fun l => (⟨l⟩ : String)))).data = joinC '/' L := by
  intro L
  induction L with
  | nil => rfl
  | cons x xs ih =>
    cases xs with
    | nil => rfl
    | cons y ys =>
      simp only [List.map_cons] at *
      rw [show joinSlash ((⟨x⟩ : String) :: (⟨y⟩ : String) ::
            List.map (fun l => (⟨l⟩ : String)) ys) =
          (⟨x⟩ : String) ++ "/" ++ joinSlash ((⟨y⟩ : String) ::
            List.map (fun l => (⟨l⟩ : String)) ys) from rfl]
      rw [strData_append, strData_append, ih]
      simp [joinC]

theorem mkStr_cons_ne_empty (c : Char) (cs : List Char) : (⟨c :: cs⟩ : String) ≠ "" := by
  intro h
  simpa using congrArg String.data h

/-- Counterexample for C7 as stated: for the path `fr/home` (no leading
slash) with supported locales `["fr"]`, the first non-empty segment of
the `/`-split is `fr`, which IS in the locale set — but the source
tests `path_parts[1]` (here `"home"`), so it records the DEFAULT locale
with the implicit marker and leaves the path unchanged, not the
explicit locale `fr`. -/
theorem i18n_first_segment_counterexample :
    firstNonEmptySeg "fr/home" = some "fr" ∧
    "fr" ∈ ["fr"] ∧
    i18nCall ⟨"en", ["fr"]⟩ { baseEnv with pathInfo := "fr/home" } =
      { baseEnv with pathInfo := "fr/home", ckanLang := some "en",
                     langIsDefault := some true } ∧
    some "en" ≠ some "fr" := by
  exact ⟨rfl, by decide, rfl, by decide⟩

/-- **C7** (amended).  For a request not yet locale-resolved whose path
is a conventional WSGI path (empty, or starting with `/` but not `//`),
with the empty string not a supported locale: if the first non-empty
`/`-segment is a supported locale, it is recorded as the resolved
locale with the explicit (not-default) marker and the path is rewritten
to the remainder after `/locale` (empty remainder becomes `/`);
otherwise the configured default locale is recorded with the implicit
marker and the environ — path included — is left unmodified.  (For
paths outside this shape the source tests `path_parts[1]`, which is not
the first non-empty segment; see the counterexample.) -/
theorem i18n_locale_resolution (cfg : I18nConfig) (env : Env)
    (h0 : env.ckanLang = none)
    (hwf : wellFormedPath env.pathInfo)
    (hempty : "" ∉ cfg.local_list) :
    (∀ s, firstNonEmptySeg env.pathInfo = some s → s ∈ cfg.local_list →
      (i18nCall cfg env).ckanLang = some s ∧
      (i18nCall cfg env).langIsDefault = some false ∧
      (env.pathInfo = "/" ++ s ++ (i18nCall cfg env).pathInfo ∨
       ((i18nCall cfg env).pathInfo = "/" ∧ env.pathInfo = "/" ++ s))) ∧
    ((¬ ∃ s, firstNonEmptySeg env.pathInfo = some s ∧ s ∈ cfg.local_list) →
      i18nCall cfg env =
        { env with ckanLang := some cfg.default_locale, langIsDefault := some true }) := by
  have hns : env.ckanLang.isSome = false := by rw [h0]; rfl
  rcases hwf with hnil | ⟨h1, h2⟩
  · -- empty path: one empty segment, no non-empty segment, default branch
    have hdata : env.pathInfo.data = [] := by rw [hnil]
    have hPS : pySplit '/' env.pathInfo = [""] := by simp [pySplit, hdata, splitC]
    have hfst : firstNonEmptySeg env.pathInfo = none := by
      simp [firstNonEmptySeg, hPS, List.find?]
    constructor
    · intro s hs
      rw [hfst] at hs
      cases hs
    · intro _
      simp [i18nCall, hns, hPS]
  · rcases hD : env.pathInfo.data with _ | ⟨c, T⟩
    · rw [hD] at h1
      simp at h1
    · have hc : c = '/' := by
        rw [hD] at h1
        simpa using h1
      subst hc
      rcases hT : T with _ | ⟨t, T'⟩
      · -- path = "/": segments ["", ""], no non-empty segment
        rw [hT] at hD
        have hPS : pySplit '/' env.pathInfo = ["", ""] := by
          simp [pySplit, hD, splitC]
        have hfst : firstNonEmptySeg env.pathInfo = none := by
          simp [firstNonEmptySeg, hPS, List.find?]
        constructor
        · intro s hs
          rw [hfst] at hs
          cases hs
        · intro _
          simp [i18nCall, hns, hPS, hempty]
      · rw [hT] at hD
        have ht : t ≠ '/' := by
          intro hteq
          apply h2
          rw [hD, hteq]
          rfl
        obtain ⟨p, ps, hps⟩ := splitC_shape '/' T'
        have hsplitD : splitC '/' env.pathInfo.data = [] :: (t :: p) :: ps := by
          rw [hD, splitC_cons_sep, splitC_cons_ne '/' t T' p ps ht hps]
        have hPS : pySplit '/' env.pathInfo =
            "" :: (⟨t :: p⟩ : String) :: ps.map (fun l => (⟨l⟩ : String)) := by
          simp [pySplit, hsplitD]
        have hp1ne : (⟨t :: p⟩ : String) ≠ "" := mkStr_cons_ne_empty t p
        have hp1b : ((⟨t :: p⟩ : String) != "") = true := bne_iff_ne.mpr hp1ne
        have hfst : firstNonEmptySeg env.pathInfo = some ⟨t :: p⟩ := by
          simp [firstNonEmptySeg, hPS, List.find?, hp1b]
        have hT'join : joinC '/' (p :: ps) = T' := by
          rw [← hps]
          exact joinC_splitC '/' T'
        by_cases hmem : (⟨t :: p⟩ : String) ∈ cfg.local_list
        · constructor
          · intro s hfs hsmem
            rw [hfst] at hfs
            injection hfs with hfs
            subst hfs
            rcases hqs : ps with _ | ⟨q, qs⟩
            · rw [hqs] at hT'join hPS
              have hTp : T' = p := by simpa [joinC] using hT'join.symm
              have hcall : i18nCall cfg env =
                  { env with ckanLang := some ⟨t :: p⟩, langIsDefault := some false,
                             pathInfo := "/" } := by
                simp [i18nCall, hns, hPS, hmem]
              refine ⟨by rw [hcall], by rw [hcall], Or.inr ⟨by rw [hcall], ?_⟩⟩
              apply strExt
              rw [strData_append, hD, hTp]
              rfl
            · rw [hqs] at hT'join hPS
              have hcall : i18nCall cfg env =
                  { env with ckanLang := some ⟨t :: p⟩, langIsDefault := some false,
                             pathInfo := joinSlash ("" ::
                               (q :: qs).map (fun l => (⟨l⟩ : String))) } := by
                simp [i18nCall, hns, hPS, hmem]
              have hout : (i18nCall cfg env).pathInfo =
                  joinSlash ("" :: (q :: qs).map (fun l => (⟨l⟩ : String))) := by
                rw [hcall]
              refine ⟨by rw [hcall], by rw [hcall], Or.inl ?_⟩
              apply strExt
              rw [strData_append, strData_append, hout, hD]
              have hjs : (joinSlash (("" : String) :: (⟨q⟩ : String) ::
                  qs.map (fun l => (⟨l⟩ : String)))).data =
                  '/' :: joinC '/' (q :: qs) := by
                have h := joinSlash_data ([] :: q :: qs)
                simp only [List.map_cons] at h
                rw [show ((⟨[]⟩ : String)) = "" from rfl] at h
                exact h.trans rfl
              simp only [List.map_cons]
              rw [hjs]
              have hT'eq : T' = p ++ '/' :: joinC '/' (q :: qs) := by
                rw [← hT'join]
                rfl
              rw [hT'eq]
              simp
          · intro hno
            exact absurd ⟨⟨t :: p⟩, hfst, hmem⟩ hno
        · have hcall : i18nCall cfg env =
              { env with ckanLang := some cfg.default_locale,
                         langIsDefault := some true } := by
            simp [i18nCall, hns, hPS, hmem]
          constructor
          · intro s hfs hsmem
            rw [hfst] at hfs
            injection hfs with hfs
            subst hfs
            exact absurd hsmem hmem
          · intro _
            exact hcall

/-- Witness for C7 (amended): `/fr/home` resolves explicitly to `fr`
with the path rewritten, `/xx/home` keeps the default locale with the
path unmodified. -/
theorem i18n_locale_resolution_witness :
    ((i18nCall ⟨"en", ["fr"]⟩ { baseEnv with pathInfo := "/fr/home" }).ckanLang =
        some "fr" ∧
      (i18nCall ⟨"en", ["fr"]⟩ { baseEnv with pathInfo := "/fr/home" }).langIsDefault =
        some false ∧
      (({ baseEnv with pathInfo := "/fr/home" } : Env).pathInfo =
          "/" ++ "fr" ++ (i18nCall ⟨"en", ["fr"]⟩
            { baseEnv with pathInfo := "/fr/home" }).pathInfo ∨
       ((i18nCall ⟨"en", ["fr"]⟩ { baseEnv with pathInfo := "/fr/home" }).pathInfo = "/" ∧
        ({ baseEnv with pathInfo := "/fr/home" } : Env).pathInfo = "/" ++ "fr"))) ∧
    i18nCall ⟨"en", ["fr"]⟩ { baseEnv with pathInfo := "/xx/home" } =
      { baseEnv with pathInfo := "/xx/home", ckanLang := some "en",
                     langIsDefault := some true } := by
  constructor
  · exact (i18n_locale_resolution ⟨"en", ["fr"]⟩ { baseEnv with pathInfo := "/fr/home" }
      rfl (Or.inr ⟨by decide, by decide⟩) (by decide)).1 "fr" rfl (by decide)
  · refine (i18n_locale_resolution ⟨"en", ["fr"]⟩ { baseEnv with pathInfo := "/xx/home" }
      rfl (Or.inr ⟨by decide, by decide⟩) (by decide)).2 ?_
    rintro ⟨s, hs, hmem⟩
    rw [show firstNonEmptySeg ({ baseEnv with pathInfo := "/xx/home" } : Env).pathInfo =
      some "xx" from rfl] at hs
    injection hs with hs
    subst hs
    exact absurd hmem (by decide)
